import Mathlib

/-!
# ram-nand: geometry, device size and the operation queue

A shallow embedding of `system/dev/nand/ram-nand/ram-nand.h`.

* `uint32_t` and `uint64_t` values are natural numbers; a `uint32_t` is a
  natural number below `U32_SIZE`, and 64-bit unsigned arithmetic is
  arithmetic followed by `% U64_SIZE`.
* `NandParams` is the wrapper struct of the header, `NandDevice` the state of
  the device class (its data members), both with the names of the header.
* The header defines `NandParams` (constructors, `GetSize`) and the inline
  `NandDevice::GetSize` and `NandDevice::SetDevice`; these are translated
  from it. The other member functions are only declared there; their
  definitions below follow the spec and say so.
-/

namespace RamNand

/-! ## Machine integers -/

/-- Number of values of a `uint32_t`: 2^32. -/
def U32_SIZE : Nat := 4294967296

/-- Number of values of a `uint64_t`: 2^64. -/
def U64_SIZE : Nat := 18446744073709551616

/-- The conversion `static_cast<uint64_t>(x)` (also the implicit conversion
of an operand to `uint64_t`). -/
def toU64 (x : Nat) : Nat := x % U64_SIZE

/-- Multiplication of two `uint64_t` operands: the product modulo 2^64. -/
def mulU64 (x y : Nat) : Nat := (x * y) % U64_SIZE

/-! ## Geometry: `nand_info_t` and `NandParams` -/

/-- Modelled from the spec: the record `nand_info_t` is declared in
`ddk/protocol/nand.h`, which is not among the sources. The spec gives the
geometry as `{page_size: u32, pages_per_block: u32, num_blocks: u32,
ecc_bits: u32}`, and the header initialises it with these four values in
this order and reads no other field. -/
structure nand_info_t where
  page_size : Nat
  pages_per_block : Nat
  num_blocks : Nat
  ecc_bits : Nat
deriving DecidableEq, Repr

/-- All four fields are values of a `uint32_t`. -/
def nand_info_t.InRange (i : nand_info_t) : Prop :=
  i.page_size < U32_SIZE ∧ i.pages_per_block < U32_SIZE ∧
    i.num_blocks < U32_SIZE ∧ i.ecc_bits < U32_SIZE

instance (i : nand_info_t) : Decidable i.InRange := by
  unfold nand_info_t.InRange
  infer_instance

/-- The struct `NandParams : public nand_info_t`: it has no data members of
its own. -/
structure NandParams extends nand_info_t where
deriving DecidableEq, Repr

/-- The constructor `NandParams(const nand_info_t& base)`: the assignment
`*this = *reinterpret_cast<const NandParams*>(&base)` copies the whole base
record into the new object. -/
def NandParams.NandParams_base (base : nand_info_t) : NandParams :=
  { page_size := base.page_size
    pages_per_block := base.pages_per_block
    num_blocks := base.num_blocks
    ecc_bits := base.ecc_bits }

/-- The constructor `NandParams(uint32_t page_size, uint32_t pages_per_block,
uint32_t num_blocks, uint32_t ecc_bits)`: it delegates to the constructor from
`nand_info_t {page_size, pages_per_block, num_blocks, ecc_bits}`. -/
def NandParams.NandParams_fields (page_size pages_per_block num_blocks ecc_bits : Nat) :
    NandParams :=
  NandParams.NandParams_base
    { page_size := page_size
      pages_per_block := pages_per_block
      num_blocks := num_blocks
      ecc_bits := ecc_bits }

/-- The default constructor `NandParams() : NandParams(0, 0, 0, 0)`. -/
def NandParams.NandParams_default : NandParams :=
  NandParams.NandParams_fields 0 0 0 0

/-- The method `NandParams::GetSize`:
`static_cast<uint64_t>(page_size) * pages_per_block * num_blocks`.
The cast makes the left operand a `uint64_t`; each multiplication converts its
right operand to `uint64_t` and is carried out modulo 2^64, left to right. -/
def NandParams.GetSize (p : NandParams) : Nat :=
  mulU64 (mulU64 (toU64 p.page_size) (toU64 p.pages_per_block)) (toU64 p.num_blocks)

/-- The value of the first multiplication of `GetSize`, the subexpression
`static_cast<uint64_t>(page_size) * pages_per_block`. -/
def NandParams.pageBlockProduct (p : NandParams) : Nat :=
  mulU64 (toU64 p.page_size) (toU64 p.pages_per_block)

/-! ## Operations -/

/-- Modelled from the spec: the kind of an operation. The record `nand_op_t`
is declared in `ddk/protocol/nand.h`, which is not among the sources. The spec
lists read, write, erase and the bad-block query; the query is answered by
`ListBadBlocks` and has no per-operation algorithm in the spec, so the three
storage kinds are the ones modelled. -/
inductive OpKind where
  | read
  | write
  | erase
deriving DecidableEq, Repr

/-- Modelled from the spec: the operation record `nand_op_t` (declared in
`ddk/protocol/nand.h`, not among the sources): kind, target address
(block, page, column), length, the caller-owned buffer (`data`, the source of
a write) and the opaque context of its completion channel (`cookie`). -/
structure nand_op_t where
  command : OpKind
  block : Nat
  page : Nat
  column : Nat
  length : Nat
  data : List Nat
  cookie : Nat
deriving DecidableEq, Repr

/-! ## The device -/

/-- The data members of `class NandDevice` that carry state between calls:
`zx_device_`, `remove_callback_` and `mapped_addr_` are addresses (0 is
`nullptr`), `params_` the geometry, `txn_list_` the list of queued
operations from head to tail, `dead_` and `thread_created_` the two flags.
The kernel objects (`vmo_`, `lock_`, `wake_signal_`, `worker_`) and the name
buffer hold no value the functions below read. -/
structure NandDevice where
  zx_device_ : Nat
  remove_callback_ : Nat
  mapped_addr_ : Nat
  params_ : NandParams
  txn_list_ : List nand_op_t
  dead_ : Bool
  thread_created_ : Bool
deriving DecidableEq, Repr

/-- The method `NandDevice::GetSize`: `return params_.GetSize();`. -/
def NandDevice.GetSize (d : NandDevice) : Nat :=
  d.params_.GetSize

/-- The method `NandDevice::SetDevice`: `zx_device_ = device;`. -/
def NandDevice.SetDevice (d : NandDevice) (device : Nat) : NandDevice :=
  { d with zx_device_ := device }

/-- Modelled from the spec: the body of the constructor
`NandDevice(const NandParams& params)` is not among the sources. `Construct`
builds the engine in an un-started state holding the given geometry; every
other member has its in-class initialiser of the header (`nullptr`, `0`,
`{}`, `false`). -/
def NandDevice.Construct (params : NandParams) : NandDevice :=
  { zx_device_ := 0
    remove_callback_ := 0
    mapped_addr_ := 0
    params_ := params
    txn_list_ := []
    dead_ := false
    thread_created_ := false }

/-! ## The operation queue -/

/-- Modelled from the spec: the body of `NandDevice::AddToList` is not among
the sources. It is the queue half of `submit`: when `dead` is set nothing is
stored and the answer is `false`; otherwise the operation is appended to the
tail and the answer is `true`. -/
def NandDevice.AddToList (d : NandDevice) (operation : nand_op_t) : Bool × NandDevice :=
  if d.dead_ then (false, d)
  else (true, { d with txn_list_ := d.txn_list_ ++ [operation] })

/-- The synchronous error of a submission. -/
inductive SubmitError where
  | Rejected
deriving DecidableEq, Repr

/-- Modelled from the spec: the body of `NandDevice::Queue` is not among the
sources. `submit(operation) -> Result<(), Rejected>` fails with `Rejected`
if `dead` is set and otherwise appends to the tail (and wakes the worker,
which has no state in this model). The second component is the device
after the call. -/
def NandDevice.Queue (d : NandDevice) (operation : nand_op_t) :
    Except SubmitError Unit × NandDevice :=
  match d.AddToList operation with
  | (true, d') => (Except.ok (), d')
  | (false, d') => (Except.error SubmitError.Rejected, d')

/-- What a call of `take()` does in a given state: it returns an operation
(with the device after the removal), it returns `None`, or it stays
suspended because nothing is pending and the queue is not dead. -/
inductive TakeOutcome where
  | operation (op : nand_op_t) (next : NandDevice)
  | terminated
  | suspended
deriving DecidableEq, Repr

/-- Modelled from the spec: the body of `NandDevice::RemoveFromList` is not
among the sources. `take() -> Option<Operation>` blocks until an operation is
available or `dead` becomes true, hands out the operation at the head, and
returns `None` only when `dead` is true and the queue is empty. -/
def NandDevice.RemoveFromList (d : NandDevice) : TakeOutcome :=
  match d.txn_list_ with
  | op :: rest => TakeOutcome.operation op { d with txn_list_ := rest }
  | [] => if d.dead_ then TakeOutcome.terminated else TakeOutcome.suspended

/-- Modelled from the spec: the body of `NandDevice::Kill` is not among the
sources. `kill()` sets `dead = true`. -/
def NandDevice.Kill (d : NandDevice) : NandDevice :=
  { d with dead_ := true }

/-- Submitting a list of operations one after the other, first to last.
The result is `none` as soon as one submission is rejected. -/
def NandDevice.QueueAll : NandDevice → List nand_op_t → Option NandDevice
  | d, [] => some d
  | d, op :: ops =>
    match d.Queue op with
    | (Except.ok _, d') => NandDevice.QueueAll d' ops
    | (Except.error _, _) => none

/-- The operations returned by `n` successive calls of `take()`, first to
last, with the device after them. The result is `none` if one of the calls
does not return an operation. -/
def NandDevice.TakeN : Nat → NandDevice → Option (List nand_op_t × NandDevice)
  | 0, d => some ([], d)
  | n + 1, d =>
    match d.RemoveFromList with
    | TakeOutcome.operation op d' =>
      match NandDevice.TakeN n d' with
      | some (ops, d'') => some (op :: ops, d'')
      | none => none
    | TakeOutcome.terminated => none
    | TakeOutcome.suspended => none

/-! ## Storage backend -/

/-- The erase fill pattern: all ones. -/
def ERASE_PATTERN : Nat := 255

/-- Modelled from the spec: the storage backend is a byte buffer addressed by
linear offset; its code is not among the sources. `read(offset, length)`
returns the bytes of the range; the precondition `offset + length <= size` is
a fatal assertion (`none`). -/
def Backend.read (mem : List Nat) (offset length : Nat) : Option (List Nat) :=
  if offset + length ≤ mem.length then some ((mem.drop offset).take length) else none

/-- Modelled from the spec: `write(offset, bytes)` stores the bytes at the
range and leaves every other byte as it is; a range past the end is a fatal
assertion (`none`). -/
def Backend.write (mem : List Nat) (offset : Nat) (bytes : List Nat) : Option (List Nat) :=
  if offset + bytes.length ≤ mem.length then
    some (mem.take offset ++ bytes ++ mem.drop (offset + bytes.length))
  else none

/-- Modelled from the spec: `erase(offset, length)` fills the range with the
erase pattern; a range past the end is a fatal assertion (`none`). -/
def Backend.erase (mem : List Nat) (offset length : Nat) : Option (List Nat) :=
  Backend.write mem offset (List.replicate length ERASE_PATTERN)

/-! ## Bad block tracker -/

/-- Modelled from the spec: `is_bad(block_index)` of the bad block tracker, a
set of block indices kept as a list without duplicates. -/
def BadBlocks.is_bad (bad : List Nat) (block_index : Nat) : Bool :=
  decide (block_index ∈ bad)

/-- Modelled from the spec: the status an operation completes with. -/
inductive Status where
  | Ok
  | InvalidArgs
  | IoError
  | Canceled
deriving DecidableEq, Repr

/-- One firing of a completion channel: the operation, its status, the byte
count transferred and, for a read, the bytes delivered. -/
structure Completion where
  op : nand_op_t
  status : Status
  transferred : Nat
  data : List Nat
deriving DecidableEq, Repr

/-- The alignment rule of an operation kind: the spec leaves it to the
implementer ("page- or block-aligned as required by the operation kind"), so
it is a parameter: kind, geometry, block, page, column, length. -/
abbrev AlignPolicy := OpKind → NandParams → Nat → Nat → Nat → Nat → Bool

/-- Modelled from the spec: the addressing rule
`offset(block, page, column) = (block * pages_per_block + page) * page_size + column`. -/
def offset (g : NandParams) (block page column : Nat) : Nat :=
  (block * g.pages_per_block + page) * g.page_size + column

/-- The state the worker acts on: the device (geometry, queue, dead flag),
the bytes of the mapped backend, the bad block set and the completions
delivered so far, oldest first. -/
structure Engine where
  dev : NandDevice
  backend : List Nat
  bad : List Nat
  completions : List Completion
deriving DecidableEq, Repr

/-- The linear offset an operation targets. -/
def Engine.target (e : Engine) (op : nand_op_t) : Nat :=
  offset e.dev.params_ op.block op.page op.column

/-- Modelled from the spec: validation of address and length against the
geometry: the access lies within `total_size` and meets the alignment rule of
its kind. -/
def Engine.Validate (aligned : AlignPolicy) (e : Engine) (op : nand_op_t) : Bool :=
  decide (e.target op + op.length ≤ e.dev.GetSize) &&
    aligned op.command e.dev.params_ op.block op.page op.column op.length

/-- Firing the completion channel of an operation. -/
def Engine.Complete (e : Engine) (op : nand_op_t) (status : Status) (transferred : Nat)
    (data : List Nat) : Engine :=
  { e with completions := e.completions ++
      [{ op := op, status := status, transferred := transferred, data := data }] }

/-- Modelled from the spec: the per-operation algorithm of the worker, whose
code is not among the sources: an invalid request fails with `InvalidArgs`;
a request on a block the tracker reports bad fails with `IoError`; otherwise
the backend access is performed and `Ok` is reported with the transferred
length. Neither failure touches the backend. The result is `none` when a
backend assertion fails. -/
def Engine.Execute (aligned : AlignPolicy) (e : Engine) (op : nand_op_t) : Option Engine :=
  if e.Validate aligned op = false then
    some (e.Complete op Status.InvalidArgs 0 [])
  else if BadBlocks.is_bad e.bad op.block = true then
    some (e.Complete op Status.IoError 0 [])
  else
    match op.command with
    | OpKind.read =>
      match Backend.read e.backend (e.target op) op.length with
      | some bytes => some (e.Complete op Status.Ok bytes.length bytes)
      | none => none
    | OpKind.write =>
      match Backend.write e.backend (e.target op) (op.data.take op.length) with
      | some mem => some ({ e with backend := mem }.Complete op Status.Ok op.length [])
      | none => none
    | OpKind.erase =>
      match Backend.erase e.backend (e.target op) op.length with
      | some mem => some ({ e with backend := mem }.Complete op Status.Ok op.length [])
      | none => none

/-- Submitting an operation to the engine: the queue of its device. -/
def Engine.Submit (e : Engine) (op : nand_op_t) : Except SubmitError Unit × Engine :=
  ((e.dev.Queue op).1, { e with dev := (e.dev.Queue op).2 })

/-- What one turn of the worker loop does. -/
inductive StepOutcome where
  | progressed (next : Engine)
  | idle
  | stopped
  | fault
deriving DecidableEq, Repr

/-- Modelled from the spec: one turn of `NandDevice::WorkerThread`, whose code
is not among the sources: `take()`; on `None` the worker stops; an operation
taken while the queue is dead (draining) is completed with `Canceled` without
touching the backend; otherwise the per-operation algorithm runs. -/
def Engine.WorkerStep (aligned : AlignPolicy) (e : Engine) : StepOutcome :=
  match e.dev.RemoveFromList with
  | TakeOutcome.suspended => StepOutcome.idle
  | TakeOutcome.terminated => StepOutcome.stopped
  | TakeOutcome.operation op d' =>
    if d'.dead_ = true then
      StepOutcome.progressed ({ e with dev := d' }.Complete op Status.Canceled 0 [])
    else
      match Engine.Execute aligned { e with dev := d' } op with
      | some e' => StepOutcome.progressed e'
      | none => StepOutcome.fault

/-- How a bounded run of the worker ended. -/
inductive WorkerEnd where
  | Idle
  | Stopped
  | Fault
  | OutOfFuel
deriving DecidableEq, Repr

/-- The worker loop, at most `fuel` turns: it runs until `take()` suspends
(`Idle`), returns `None` (`Stopped`) or a backend assertion fails. -/
def Engine.WorkerThread (aligned : AlignPolicy) : Nat → Engine → Engine × WorkerEnd
  | 0, e => (e, WorkerEnd.OutOfFuel)
  | fuel + 1, e =>
    match e.WorkerStep aligned with
    | StepOutcome.progressed e' => Engine.WorkerThread aligned fuel e'
    | StepOutcome.idle => (e, WorkerEnd.Idle)
    | StepOutcome.stopped => (e, WorkerEnd.Stopped)
    | StepOutcome.fault => (e, WorkerEnd.Fault)

/-- Modelled from the spec: the engine state after `Init`, whose code is not
among the sources: a device constructed from the geometry, a backend sized to
`GetSize()` (every byte `fill`), no bad block and no completion yet. -/
def Engine.Init (params : NandParams) (fill : Nat) : Engine :=
  { dev := NandDevice.Construct params
    backend := List.replicate params.GetSize fill
    bad := []
    completions := [] }

/-- The write of the bytes `bytes` to the range of `length` bytes at
(block, page, column). -/
def nand_op_t.mkWrite (block page column length : Nat) (bytes : List Nat) (cookie : Nat) :
    nand_op_t :=
  { command := OpKind.write, block := block, page := page, column := column,
    length := length, data := bytes, cookie := cookie }

/-- The read of the range of `length` bytes at (block, page, column);
`buffer` is what the destination buffer holds beforehand. -/
def nand_op_t.mkRead (block page column length : Nat) (buffer : List Nat) (cookie : Nat) :
    nand_op_t :=
  { command := OpKind.read, block := block, page := page, column := column,
    length := length, data := buffer, cookie := cookie }

/-- The erase of the range of `length` bytes at (block, page, column). -/
def nand_op_t.mkErase (block page column length : Nat) (cookie : Nat) : nand_op_t :=
  { command := OpKind.erase, block := block, page := page, column := column,
    length := length, data := [], cookie := cookie }

/-- An alignment rule used in examples: whole pages only (column 0 and a
length that is a multiple of the page size), for every kind. -/
def pageAligned : AlignPolicy :=
  fun _ g _ _ column length => decide (column = 0) && decide (length % g.page_size = 0)

theorem U32_lt_U64 {x : Nat} (h : x < U32_SIZE) : x < U64_SIZE :=
  Nat.lt_trans h (by decide)

theorem toU64_of_U32 {x : Nat} (h : x < U32_SIZE) : toU64 x = x :=
  Nat.mod_eq_of_lt (U32_lt_U64 h)

theorem mul_U32_lt_U64 {x y : Nat} (hx : x < U32_SIZE) (hy : y < U32_SIZE) :
    x * y < U64_SIZE := by
  have h1 : x * y ≤ (U32_SIZE - 1) * (U32_SIZE - 1) :=
    Nat.mul_le_mul (Nat.le_sub_one_of_lt hx) (Nat.le_sub_one_of_lt hy)
  have h2 : (U32_SIZE - 1) * (U32_SIZE - 1) < U64_SIZE := by decide
  exact Nat.lt_of_le_of_lt h1 h2

theorem NandParams.GetSize_mod (p : NandParams) :
    p.GetSize = (p.page_size * p.pages_per_block * p.num_blocks) % U64_SIZE := by
  unfold NandParams.GetSize mulU64 toU64
  simp [Nat.mul_mod, Nat.mod_mod]

theorem NandParams.GetSize_exact (p : NandParams)
    (h : p.page_size * p.pages_per_block * p.num_blocks < U64_SIZE) :
    p.GetSize = p.page_size * p.pages_per_block * p.num_blocks := by
  rw [NandParams.GetSize_mod, Nat.mod_eq_of_lt h]

/-! ## Geometry -/

/-- C1 (as amended): for every geometry of four 32-bit unsigned fields whose
product `page_size * pages_per_block * num_blocks` is below 2^64,
`NandParams::GetSize()` returns exactly that product; and the geometry
`{4096, 64, 1024, 8}` gives 268435456. -/
theorem NandParams.GetSize_exact_of_fits (p : NandParams) (_hr : p.InRange)
    (hfit : p.page_size * p.pages_per_block * p.num_blocks < U64_SIZE) :
    p.GetSize = p.page_size * p.pages_per_block * p.num_blocks ∧
      (NandParams.NandParams_fields 4096 64 1024 8).GetSize = 268435456 :=
  ⟨NandParams.GetSize_exact p hfit, by decide⟩

theorem NandParams.GetSize_exact_of_fits_witness :
    (NandParams.NandParams_fields 4096 64 1024 8).InRange ∧
      4096 * 64 * 1024 < U64_SIZE ∧
      (NandParams.NandParams_fields 4096 64 1024 8).GetSize = 4096 * 64 * 1024 :=
  ⟨by decide, by decide,
    (NandParams.GetSize_exact_of_fits (NandParams.NandParams_fields 4096 64 1024 8)
      (by decide) (by decide)).1⟩

/-- C1 (as stated) fails: the geometry `{4194304, 2097152, 2097152, 0}` has
four 32-bit fields, its product is 2^64, and `GetSize()` returns 0. -/
theorem NandParams.GetSize_wraps :
    (NandParams.NandParams_fields 4194304 2097152 2097152 0).InRange ∧
      4194304 * 2097152 * 2097152 = 18446744073709551616 ∧
      (NandParams.NandParams_fields 4194304 2097152 2097152 0).GetSize = 0 ∧
      (NandParams.NandParams_fields 4194304 2097152 2097152 0).GetSize ≠
        4194304 * 2097152 * 2097152 := by
  decide

/-- C2: the default constructor is `NandParams(0, 0, 0, 0)`, a geometry (the
constructors have no error value) whose four fields are 0 and whose
`GetSize()` is 0; a device that holds it has size 0. -/
theorem NandParams.default_is_zero :
    NandParams.NandParams_default = NandParams.NandParams_fields 0 0 0 0 ∧
      NandParams.NandParams_default.page_size = 0 ∧
      NandParams.NandParams_default.pages_per_block = 0 ∧
      NandParams.NandParams_default.num_blocks = 0 ∧
      NandParams.NandParams_default.ecc_bits = 0 ∧
      NandParams.NandParams_default.InRange ∧
      NandParams.NandParams_default.GetSize = 0 ∧
      (NandParams.NandParams_fields 0 0 0 0).GetSize = 0 ∧
      (∀ d : NandDevice, d.params_ = NandParams.NandParams_default → d.GetSize = 0) := by
  have hsize : NandParams.NandParams_default.GetSize = 0 := by decide
  refine ⟨rfl, rfl, rfl, rfl, rfl, by decide, hsize, hsize, ?_⟩
  intro d hd
  unfold NandDevice.GetSize
  rw [hd, hsize]

/-- C3: for all 32-bit unsigned `a b c d`, `NandParams(a, b, c, d)` has the
fields `a`, `b`, `c`, `d` (and is again a geometry of 32-bit fields); for
every base record `info`, `NandParams(info)` has the four fields of `info`,
its base is `info`, and every `NandParams` is rebuilt from its own base. -/
theorem NandParams.constructors_keep_fields (a b c d : Nat)
    (ha : a < U32_SIZE) (hb : b < U32_SIZE) (hc : c < U32_SIZE) (hd : d < U32_SIZE) :
    ((NandParams.NandParams_fields a b c d).page_size = a ∧
      (NandParams.NandParams_fields a b c d).pages_per_block = b ∧
      (NandParams.NandParams_fields a b c d).num_blocks = c ∧
      (NandParams.NandParams_fields a b c d).ecc_bits = d ∧
      (NandParams.NandParams_fields a b c d).InRange) ∧
    (∀ info : nand_info_t,
      (NandParams.NandParams_base info).page_size = info.page_size ∧
      (NandParams.NandParams_base info).pages_per_block = info.pages_per_block ∧
      (NandParams.NandParams_base info).num_blocks = info.num_blocks ∧
      (NandParams.NandParams_base info).ecc_bits = info.ecc_bits ∧
      (NandParams.NandParams_base info).tonand_info_t = info) ∧
    (∀ p : NandParams, NandParams.NandParams_base p.tonand_info_t = p) :=
  ⟨⟨rfl, rfl, rfl, rfl, ha, hb, hc, hd⟩,
    fun _ => ⟨rfl, rfl, rfl, rfl, rfl⟩,
    fun _ => rfl⟩

theorem NandParams.constructors_keep_fields_witness :
    (NandParams.NandParams_fields 4096 64 1024 8).page_size = 4096 ∧
      (NandParams.NandParams_fields 4096 64 1024 8).pages_per_block = 64 ∧
      (NandParams.NandParams_fields 4096 64 1024 8).num_blocks = 1024 ∧
      (NandParams.NandParams_fields 4096 64 1024 8).ecc_bits = 8 ∧
      (NandParams.NandParams_fields 4096 64 1024 8).InRange :=
  (NandParams.constructors_keep_fields 4096 64 1024 8
    (by decide) (by decide) (by decide) (by decide)).1

/-- C10: for every geometry of 32-bit fields, `GetSize()` is
`(page_size * pages_per_block * num_blocks) mod 2^64`; the first
multiplication, done in 64 bits, is the exact `page_size * pages_per_block`
(below 2^64); so `GetSize()` is the exact product whenever that is below
2^64, also where the product exceeds 2^32 - 1 and its 32-bit truncation
would differ. -/
theorem NandParams.GetSize_is_product_mod_U64 (p : NandParams) (hr : p.InRange) :
    p.GetSize = (p.page_size * p.pages_per_block * p.num_blocks) % U64_SIZE ∧
      p.pageBlockProduct = p.page_size * p.pages_per_block ∧
      p.page_size * p.pages_per_block < U64_SIZE ∧
      p.GetSize = mulU64 p.pageBlockProduct (toU64 p.num_blocks) ∧
      (p.page_size * p.pages_per_block * p.num_blocks < U64_SIZE →
        p.GetSize = p.page_size * p.pages_per_block * p.num_blocks ∧
        (U32_SIZE - 1 < p.page_size * p.pages_per_block * p.num_blocks →
          (p.page_size * p.pages_per_block * p.num_blocks) % U32_SIZE ≠ p.GetSize)) := by
  have hlt : p.page_size * p.pages_per_block < U64_SIZE := mul_U32_lt_U64 hr.1 hr.2.1
  refine ⟨NandParams.GetSize_mod p, ?_, hlt, rfl, fun hfit => ⟨NandParams.GetSize_exact p hfit, ?_⟩⟩
  · unfold NandParams.pageBlockProduct mulU64
    rw [toU64_of_U32 hr.1, toU64_of_U32 hr.2.1, Nat.mod_eq_of_lt hlt]
  · intro hbig heq
    rw [NandParams.GetSize_exact p hfit] at heq
    have h32 : (p.page_size * p.pages_per_block * p.num_blocks) % U32_SIZE < U32_SIZE :=
      Nat.mod_lt _ (by decide)
    omega

theorem NandParams.GetSize_is_product_mod_U64_witness :
    (NandParams.NandParams_fields 65536 65536 16 0).InRange ∧
      (NandParams.NandParams_fields 65536 65536 16 0).GetSize = 68719476736 ∧
      (NandParams.NandParams_fields 65536 65536 16 0).pageBlockProduct = 4294967296 ∧
      (65536 * 65536 * 16) % U32_SIZE = 0 :=
  ⟨by decide,
    ((NandParams.GetSize_is_product_mod_U64 (NandParams.NandParams_fields 65536 65536 16 0)
      (by decide)).2.2.2.2 (by decide)).1,
    (NandParams.GetSize_is_product_mod_U64 (NandParams.NandParams_fields 65536 65536 16 0)
      (by decide)).2.1,
    by decide⟩

/-! ## Device size -/

/-- C4 (as amended): for every device, `NandDevice::GetSize()` equals
`NandParams::GetSize()` of the geometry it holds (the one it was constructed
with), that is `(page_size * pages_per_block * num_blocks) mod 2^64`, the
total addressable size whenever that is below 2^64; two devices whose
geometries agree on `page_size`, `pages_per_block` and `num_blocks` have the
same size, whatever their `ecc_bits`, queue, dead flag, mapped address or
other state. -/
theorem NandDevice.GetSize_is_params_GetSize (d : NandDevice) :
    d.GetSize = d.params_.GetSize ∧
      d.GetSize =
        (d.params_.page_size * d.params_.pages_per_block * d.params_.num_blocks) % U64_SIZE ∧
      (d.params_.page_size * d.params_.pages_per_block * d.params_.num_blocks < U64_SIZE →
        d.GetSize = d.params_.page_size * d.params_.pages_per_block * d.params_.num_blocks) ∧
      (∀ d2 : NandDevice,
        d2.params_.page_size = d.params_.page_size →
        d2.params_.pages_per_block = d.params_.pages_per_block →
        d2.params_.num_blocks = d.params_.num_blocks →
        d2.GetSize = d.GetSize) ∧
      (∀ params : NandParams,
        (NandDevice.Construct params).params_ = params ∧
        (NandDevice.Construct params).GetSize = params.GetSize) := by
  refine ⟨rfl, NandParams.GetSize_mod d.params_, NandParams.GetSize_exact d.params_, ?_,
    fun _ => ⟨rfl, rfl⟩⟩
  intro d2 h1 h2 h3
  unfold NandDevice.GetSize NandParams.GetSize
  rw [h1, h2, h3]

/-- C4 (as stated) fails: a device whose geometry is
`{4294967295, 4294967295, 4294967295, 0}` reports the size 12884901887, which
is not the product of the three fields. -/
theorem NandDevice.GetSize_not_product :
    (NandParams.NandParams_fields 4294967295 4294967295 4294967295 0).InRange ∧
      ({ zx_device_ := 0, remove_callback_ := 0, mapped_addr_ := 0,
         params_ := NandParams.NandParams_fields 4294967295 4294967295 4294967295 0,
         txn_list_ := [], dead_ := false, thread_created_ := false } : NandDevice).GetSize
        = 12884901887 ∧
      4294967295 * 4294967295 * 4294967295 = 79228162458924105385300197375 ∧
      ({ zx_device_ := 0, remove_callback_ := 0, mapped_addr_ := 0,
         params_ := NandParams.NandParams_fields 4294967295 4294967295 4294967295 0,
         txn_list_ := [], dead_ := false, thread_created_ := false } : NandDevice).GetSize
        ≠ 4294967295 * 4294967295 * 4294967295 := by
  decide

/-! ## Queue -/

theorem NandDevice.Queue_dead (d : NandDevice) (op : nand_op_t) (h : d.dead_ = true) :
    d.Queue op = (Except.error SubmitError.Rejected, d) := by
  simp [NandDevice.Queue, NandDevice.AddToList, h]

theorem NandDevice.Queue_live (d : NandDevice) (op : nand_op_t) (h : d.dead_ = false) :
    d.Queue op = (Except.ok (), { d with txn_list_ := d.txn_list_ ++ [op] }) := by
  simp [NandDevice.Queue, NandDevice.AddToList, h]

theorem NandDevice.QueueAll_live (ops : List nand_op_t) :
    ∀ d : NandDevice, d.dead_ = false →
      d.QueueAll ops = some { d with txn_list_ := d.txn_list_ ++ ops } := by
  induction ops with
  | nil => intro d _; simp [NandDevice.QueueAll]
  | cons op ops ih =>
    intro d h
    rw [NandDevice.QueueAll, NandDevice.Queue_live d op h]
    simp only
    rw [ih { d with txn_list_ := d.txn_list_ ++ [op] } h]
    simp

theorem NandDevice.TakeN_prefix (l : List nand_op_t) :
    ∀ (d : NandDevice) (rest : List nand_op_t), d.txn_list_ = l ++ rest →
      NandDevice.TakeN l.length d = some (l, { d with txn_list_ := rest }) := by
  induction l with
  | nil =>
    intro d rest h
    simp only [List.nil_append] at h
    simp [NandDevice.TakeN, ← h]
  | cons op l ih =>
    intro d rest h
    have h1 : d.RemoveFromList = TakeOutcome.operation op { d with txn_list_ := l ++ rest } := by
      simp [NandDevice.RemoveFromList, h]
    simp only [List.length_cons, NandDevice.TakeN, h1]
    rw [ih { d with txn_list_ := l ++ rest } rest rfl]


/-! ## Backend -/

theorem Backend.write_eq (mem : List Nat) (off : Nat) (bytes : List Nat)
    (h : off + bytes.length ≤ mem.length) :
    Backend.write mem off bytes =
      some (mem.take off ++ bytes ++ mem.drop (off + bytes.length)) := by
  simp [Backend.write, h]

theorem Backend.write_length (mem : List Nat) (off : Nat) (bytes : List Nat)
    (h : off + bytes.length ≤ mem.length) :
    (mem.take off ++ bytes ++ mem.drop (off + bytes.length)).length = mem.length := by
  simp only [List.length_append, List.length_take, List.length_drop]
  omega

theorem Backend.read_eq (mem : List Nat) (off len : Nat) (h : off + len ≤ mem.length) :
    Backend.read mem off len = some ((mem.drop off).take len) := by
  simp [Backend.read, h]

theorem Backend.read_written (mem : List Nat) (off : Nat) (bytes : List Nat)
    (h : off + bytes.length ≤ mem.length) :
    ((mem.take off ++ bytes ++ mem.drop (off + bytes.length)).drop off).take bytes.length
      = bytes := by
  have hoff : (mem.take off).length = off := by
    rw [List.length_take]; omega
  rw [List.append_assoc, List.drop_append_eq_append_drop, hoff]
  simp [List.drop_eq_nil_of_le, hoff]

theorem Engine.Execute_total (aligned : AlignPolicy) (e : Engine) (op : nand_op_t)
    (hmem : e.backend.length = e.dev.GetSize) :
    ∃ e' c, Engine.Execute aligned e op = some e' ∧ e'.dev = e.dev ∧ e'.bad = e.bad ∧
      e'.backend.length = e.backend.length ∧
      e'.completions = e.completions ++ [c] ∧ c.op = op := by
  unfold Engine.Execute
  by_cases hv : e.Validate aligned op = false
  · simp only [hv, if_true]
    exact ⟨_, _, rfl, rfl, rfl, rfl, rfl, rfl⟩
  · simp only [hv, if_false]
    by_cases hb : BadBlocks.is_bad e.bad op.block = true
    · simp only [hb, if_true]
      exact ⟨_, _, rfl, rfl, rfl, rfl, rfl, rfl⟩
    · simp only [hb, if_false]
      have hv' : e.Validate aligned op = true := by simpa using hv
      have hrange : e.target op + op.length ≤ e.backend.length := by
        unfold Engine.Validate at hv'
        simp only [Bool.and_eq_true, decide_eq_true_eq] at hv'
        omega
      cases hc : op.command with
      | read =>
        simp only [Backend.read_eq _ _ _ hrange]
        exact ⟨_, _, rfl, rfl, rfl, rfl, rfl, rfl⟩
      | write =>
        have hl : e.target op + (op.data.take op.length).length ≤ e.backend.length := by
          rw [List.length_take]; omega
        simp only [Backend.write_eq _ _ _ hl]
        exact ⟨_, _, rfl, rfl, rfl, Backend.write_length _ _ _ hl, rfl, rfl⟩
      | erase =>
        have hl : e.target op + (List.replicate op.length ERASE_PATTERN).length
            ≤ e.backend.length := by
          rw [List.length_replicate]; exact hrange
        simp only [Backend.erase, Backend.write_eq _ _ _ hl]
        exact ⟨_, _, rfl, rfl, rfl, Backend.write_length _ _ _ hl, rfl, rfl⟩


theorem NandDevice.eq_of_txn_list_nil (d : NandDevice) (h : d.txn_list_ = []) :
    { d with txn_list_ := [] } = d := by
  cases d
  simp_all

theorem Engine.WorkerThread_drains (aligned : AlignPolicy) (l : List nand_op_t) :
    ∀ e : Engine, e.dev.txn_list_ = l → e.dev.dead_ = false →
      e.backend.length = e.dev.GetSize →
      ∃ e', Engine.WorkerThread aligned (l.length + 1) e = (e', WorkerEnd.Idle) ∧
        e'.dev = { e.dev with txn_list_ := [] } ∧ e'.bad = e.bad ∧
        e'.backend.length = e.backend.length ∧
        e'.completions.map Completion.op = e.completions.map Completion.op ++ l := by
  induction l with
  | nil =>
    intro e hl hd _
    refine ⟨e, ?_, (NandDevice.eq_of_txn_list_nil _ hl).symm, rfl, rfl, by simp⟩
    simp [Engine.WorkerThread, Engine.WorkerStep, NandDevice.RemoveFromList, hl, hd]
  | cons op l ih =>
    intro e hl hd hmem
    obtain ⟨e1, c, hex, hdev, hbad, hlen, hcomp, hc⟩ :=
      Engine.Execute_total aligned { e with dev := { e.dev with txn_list_ := l } } op hmem
    obtain ⟨e2, hrun, hdev2, hbad2, hlen2, hcomp2⟩ :=
      ih e1 (by rw [hdev]) (by rw [hdev]; exact hd) (by rw [hlen, hdev]; exact hmem)
    refine ⟨e2, ?_, ?_, ?_, ?_, ?_⟩
    · have hrm : e.dev.RemoveFromList =
          TakeOutcome.operation op { e.dev with txn_list_ := l } := by
        simp [NandDevice.RemoveFromList, hl]
      have hstep : e.WorkerStep aligned = StepOutcome.progressed e1 := by
        simp only [Engine.WorkerStep, hrm]
        rw [if_neg (by simp [hd]), hex]
      rw [List.length_cons, Engine.WorkerThread, hstep]
      exact hrun
    · rw [hdev2, hdev]
    · rw [hbad2, hbad]
    · rw [hlen2, hlen]
    · rw [hcomp2, hcomp]
      simp [hc]


theorem Engine.Validate_range (aligned : AlignPolicy) (e : Engine) (op : nand_op_t)
    (hv : e.Validate aligned op = true) : e.target op + op.length ≤ e.dev.GetSize := by
  unfold Engine.Validate at hv
  simp only [Bool.and_eq_true, decide_eq_true_eq] at hv
  exact hv.1

theorem Engine.Validate_of (aligned : AlignPolicy) (e : Engine) (op : nand_op_t)
    (hrange : offset e.dev.params_ op.block op.page op.column + op.length ≤ e.dev.GetSize)
    (hal : aligned op.command e.dev.params_ op.block op.page op.column op.length = true) :
    e.Validate aligned op = true := by
  unfold Engine.Validate Engine.target
  simp [hrange, hal]

theorem Engine.Execute_write (aligned : AlignPolicy) (e : Engine) (op : nand_op_t)
    (hmem : e.backend.length = e.dev.GetSize) (hcmd : op.command = OpKind.write)
    (hv : e.Validate aligned op = true) (hgood : BadBlocks.is_bad e.bad op.block = false)
    (hdata : op.data.length = op.length) :
    Engine.Execute aligned e op =
      some ({ e with backend := e.backend.take (e.target op) ++ op.data ++
                e.backend.drop (e.target op + op.length) }.Complete
              op Status.Ok op.length []) := by
  have hrange := Engine.Validate_range aligned e op hv
  have htake : op.data.take op.length = op.data := by
    rw [← hdata]; exact List.take_length _
  have hl : e.target op + op.data.length ≤ e.backend.length := by omega
  unfold Engine.Execute
  simp only [hv, hgood, hcmd, htake, Backend.write_eq _ _ _ hl, hdata]
  simp

theorem Engine.Execute_read (aligned : AlignPolicy) (e : Engine) (op : nand_op_t)
    (hmem : e.backend.length = e.dev.GetSize) (hcmd : op.command = OpKind.read)
    (hv : e.Validate aligned op = true) (hgood : BadBlocks.is_bad e.bad op.block = false) :
    Engine.Execute aligned e op =
      some (e.Complete op Status.Ok op.length ((e.backend.drop (e.target op)).take op.length)) := by
  have hrange := Engine.Validate_range aligned e op hv
  have hl : e.target op + op.length ≤ e.backend.length := by omega
  have hlen : ((e.backend.drop (e.target op)).take op.length).length = op.length := by
    rw [List.length_take, List.length_drop]; omega
  unfold Engine.Execute
  simp only [hv, hgood, hcmd, Backend.read_eq _ _ _ hl, hlen]
  simp

/-- C5: `submit(op)` fails with `Rejected` exactly when the dead flag is set;
a failed submission leaves the device (pending sequence and dead flag) as it
was; a successful one appends `op` at the tail and leaves the dead flag
false; after `kill()` every submission is rejected. -/
theorem NandDevice.Queue_rejected_iff_dead (d : NandDevice) (op : nand_op_t) :
    ((d.Queue op).1 = Except.error SubmitError.Rejected ↔ d.dead_ = true) ∧
      (d.dead_ = true →
        (d.Queue op).2 = d ∧ (d.Queue op).2.txn_list_ = d.txn_list_ ∧
        (d.Queue op).2.dead_ = d.dead_ ∧ d.AddToList op = (false, d)) ∧
      (d.dead_ = false →
        (d.Queue op).1 = Except.ok () ∧
        (d.Queue op).2.txn_list_ = d.txn_list_ ++ [op] ∧
        (d.Queue op).2.dead_ = false ∧
        (d.Queue op).2 = { d with txn_list_ := d.txn_list_ ++ [op] } ∧
        d.AddToList op = (true, { d with txn_list_ := d.txn_list_ ++ [op] })) ∧
      d.Kill.Queue op = (Except.error SubmitError.Rejected, d.Kill) := by
  refine ⟨?_, ?_, ?_, NandDevice.Queue_dead d.Kill op rfl⟩
  · cases h : d.dead_ with
    | true => rw [NandDevice.Queue_dead d op h]; simp
    | false => rw [NandDevice.Queue_live d op h]; simp
  · intro h
    rw [NandDevice.Queue_dead d op h]
    simp [NandDevice.AddToList, h]
  · intro h
    rw [NandDevice.Queue_live d op h]
    simp [NandDevice.AddToList, h]

/-- C6: `take()` returns `None` exactly when the dead flag is true and the
pending sequence is empty; whenever an operation is pending, dead or not, it
returns the operation at the head and removes it; with nothing pending and
the queue alive it stays suspended. -/
theorem NandDevice.RemoveFromList_terminated_iff (d : NandDevice) :
    (d.RemoveFromList = TakeOutcome.terminated ↔ d.dead_ = true ∧ d.txn_list_ = []) ∧
      (∀ op rest, d.txn_list_ = op :: rest →
        d.RemoveFromList = TakeOutcome.operation op { d with txn_list_ := rest }) ∧
      (d.txn_list_ ≠ [] →
        ∃ op next, d.RemoveFromList = TakeOutcome.operation op next ∧
          d.txn_list_ = op :: next.txn_list_ ∧ next.dead_ = d.dead_) ∧
      (d.dead_ = false → d.txn_list_ = [] → d.RemoveFromList = TakeOutcome.suspended) := by
  refine ⟨?_, ?_, ?_, ?_⟩
  · cases hl : d.txn_list_ with
    | nil => cases hd : d.dead_ <;> simp [NandDevice.RemoveFromList, hl, hd]
    | cons op rest => simp [NandDevice.RemoveFromList, hl]
  · intro op rest hl
    simp [NandDevice.RemoveFromList, hl]
  · intro hne
    cases hl : d.txn_list_ with
    | nil => exact absurd hl hne
    | cons op rest =>
      exact ⟨op, { d with txn_list_ := rest }, by simp [NandDevice.RemoveFromList, hl], rfl, rfl⟩
  · intro hd hl
    simp [NandDevice.RemoveFromList, hl, hd]

/-- C7: on a live engine, submitting `ops` in order succeeds and appends
exactly `ops` behind what was pending; successive `take()` calls then return
the pending operations and `ops` in that order and leave the queue empty (the
next `take()` returns none of them again); on a queue that was empty,
`ops.length` calls return exactly `ops`; and the worker, run on the queue,
completes the operations in submission order. -/
theorem Engine.queue_is_fifo (aligned : AlignPolicy) (e : Engine) (ops : List nand_op_t)
    (hlive : e.dev.dead_ = false) (hmem : e.backend.length = e.dev.GetSize) :
    ∃ d' e', e.dev.QueueAll ops = some d' ∧ d'.txn_list_ = e.dev.txn_list_ ++ ops ∧
      d'.dead_ = false ∧
      NandDevice.TakeN (e.dev.txn_list_ ++ ops).length d' =
        some (e.dev.txn_list_ ++ ops, { d' with txn_list_ := [] }) ∧
      NandDevice.RemoveFromList { d' with txn_list_ := [] } = TakeOutcome.suspended ∧
      (e.dev.txn_list_ = [] → NandDevice.TakeN ops.length d' = some (ops, e.dev)) ∧
      Engine.WorkerThread aligned ((e.dev.txn_list_ ++ ops).length + 1) { e with dev := d' } =
        (e', WorkerEnd.Idle) ∧
      e'.completions.map Completion.op =
        e.completions.map Completion.op ++ (e.dev.txn_list_ ++ ops) ∧
      e'.dev.txn_list_ = [] := by
  have hq := NandDevice.QueueAll_live ops e.dev hlive
  have ht := NandDevice.TakeN_prefix (e.dev.txn_list_ ++ ops)
    { e.dev with txn_list_ := e.dev.txn_list_ ++ ops } [] (by simp)
  obtain ⟨e', hrun, hdev, _, _, hcomp⟩ :=
    Engine.WorkerThread_drains aligned (e.dev.txn_list_ ++ ops)
      { e with dev := { e.dev with txn_list_ := e.dev.txn_list_ ++ ops } } rfl hlive hmem
  refine ⟨_, e', hq, rfl, hlive, ht, ?_, ?_, hrun, hcomp, ?_⟩
  · simp [NandDevice.RemoveFromList, hlive]
  · intro hempty
    have ht2 := NandDevice.TakeN_prefix ops
      { e.dev with txn_list_ := e.dev.txn_list_ ++ ops } [] (by simp [hempty])
    rw [ht2]
    exact congrArg (fun x => some (ops, x)) (NandDevice.eq_of_txn_list_nil e.dev hempty)
  · rw [hdev]

/-! ## Claims about the worker -/

/-- C8: for every alignment rule and geometry, a write of the bytes `b` to a
range that is within bounds, meets the alignment rule and lies on a block not
marked bad, followed by a read of the same range, completes both with `Ok`,
and the read delivers exactly `b`; the same holds when the two operations go
through the queue of a live engine and the worker runs them. -/
theorem Engine.write_then_read (aligned : AlignPolicy) (e : Engine)
    (block page column length : Nat) (b buffer : List Nat) (cw cr : Nat)
    (hmem : e.backend.length = e.dev.GetSize)
    (hb : b.length = length)
    (hrange : offset e.dev.params_ block page column + length ≤ e.dev.GetSize)
    (haw : aligned OpKind.write e.dev.params_ block page column length = true)
    (har : aligned OpKind.read e.dev.params_ block page column length = true)
    (hgood : BadBlocks.is_bad e.bad block = false) :
    ∃ e1 e2,
      Engine.Execute aligned e (nand_op_t.mkWrite block page column length b cw) = some e1 ∧
      Engine.Execute aligned e1 (nand_op_t.mkRead block page column length buffer cr)
        = some e2 ∧
      e1.completions = e.completions ++
        [{ op := nand_op_t.mkWrite block page column length b cw, status := Status.Ok,
           transferred := length, data := [] }] ∧
      e2.completions = e1.completions ++
        [{ op := nand_op_t.mkRead block page column length buffer cr, status := Status.Ok,
           transferred := length, data := b }] ∧
      (e.dev.dead_ = false → e.dev.txn_list_ = [] →
        Engine.WorkerThread aligned 3
          (((e.Submit (nand_op_t.mkWrite block page column length b cw)).2).Submit
            (nand_op_t.mkRead block page column length buffer cr)).2
          = (e2, WorkerEnd.Idle)) := by
  subst hb
  have hoff : offset e.dev.params_ block page column + b.length ≤ e.backend.length := by
    omega
  have hW := Backend.write_length e.backend (offset e.dev.params_ block page column) b hoff
  have hR := Backend.read_written e.backend (offset e.dev.params_ block page column) b hoff
  have h1 : ∀ (d : NandDevice) (cs : List Completion), d.params_ = e.dev.params_ →
      Engine.Execute aligned
        { dev := d, backend := e.backend, bad := e.bad, completions := cs }
        (nand_op_t.mkWrite block page column b.length b cw) =
      some { dev := d
             backend := e.backend.take (offset e.dev.params_ block page column) ++ b ++
               e.backend.drop (offset e.dev.params_ block page column + b.length)
             bad := e.bad
             completions := cs ++
               [{ op := nand_op_t.mkWrite block page column b.length b cw, status := Status.Ok,
                  transferred := b.length, data := [] }] } := by
    intro d cs hd
    have hsz : d.GetSize = e.dev.GetSize := by
      unfold NandDevice.GetSize; rw [hd]
    have h := Engine.Execute_write aligned
      { dev := d, backend := e.backend, bad := e.bad, completions := cs }
      (nand_op_t.mkWrite block page column b.length b cw)
      (by rw [hsz]; exact hmem) rfl
      (Engine.Validate_of aligned _ _ (by rw [hsz, hd]; exact hrange) (by rw [hd]; exact haw))
      hgood rfl
    rw [h]
    simp only [Engine.Complete, Engine.target, nand_op_t.mkWrite, hd]
  have h2 : ∀ (d : NandDevice) (cs : List Completion), d.params_ = e.dev.params_ →
      Engine.Execute aligned
        { dev := d
          backend := e.backend.take (offset e.dev.params_ block page column) ++ b ++
            e.backend.drop (offset e.dev.params_ block page column + b.length)
          bad := e.bad
          completions := cs }
        (nand_op_t.mkRead block page column b.length buffer cr) =
      some { dev := d
             backend := e.backend.take (offset e.dev.params_ block page column) ++ b ++
               e.backend.drop (offset e.dev.params_ block page column + b.length)
             bad := e.bad
             completions := cs ++
               [{ op := nand_op_t.mkRead block page column b.length buffer cr,
                  status := Status.Ok, transferred := b.length, data := b }] } := by
    intro d cs hd
    have hsz : d.GetSize = e.dev.GetSize := by
      unfold NandDevice.GetSize; rw [hd]
    have h := Engine.Execute_read aligned
      { dev := d
        backend := e.backend.take (offset e.dev.params_ block page column) ++ b ++
          e.backend.drop (offset e.dev.params_ block page column + b.length)
        bad := e.bad
        completions := cs }
      (nand_op_t.mkRead block page column b.length buffer cr)
      (by rw [hsz]; exact hW.trans hmem) rfl
      (Engine.Validate_of aligned _ _ (by rw [hsz, hd]; exact hrange) (by rw [hd]; exact har))
      hgood
    rw [h]
    simp only [Engine.Complete, Engine.target, nand_op_t.mkRead, hd, hR]
  refine ⟨_, _, h1 e.dev e.completions rfl, h2 e.dev _ rfl, rfl, rfl, ?_⟩
  intro hlive hempty
  obtain ⟨⟨zx, rc, ma, params, txn, dead, tc⟩, backend, bad, completions⟩ := e
  simp only at hlive hempty h1 h2
  subst hlive hempty
  generalize List.take (offset params block page column) backend ++ b ++
    List.drop (offset params block page column + b.length) backend = W at h1 h2
  simp [Engine.WorkerThread, Engine.WorkerStep, Engine.Submit, NandDevice.Queue,
    NandDevice.AddToList, NandDevice.RemoveFromList, h1, h2]

theorem Engine.write_then_read_witness :
    (Engine.Init (NandParams.NandParams_fields 4096 64 1024 8) ERASE_PATTERN).dev.GetSize
        = 268435456 ∧
      offset (NandParams.NandParams_fields 4096 64 1024 8) 2 0 0 + 4096 ≤ 268435456 ∧
      ∃ e1 e2,
        Engine.Execute pageAligned
          (Engine.Init (NandParams.NandParams_fields 4096 64 1024 8) ERASE_PATTERN)
          (nand_op_t.mkWrite 2 0 0 4096 (List.replicate 4096 7) 1) = some e1 ∧
        Engine.Execute pageAligned e1 (nand_op_t.mkRead 2 0 0 4096 [] 2) = some e2 ∧
        e2.completions = e1.completions ++
          [{ op := nand_op_t.mkRead 2 0 0 4096 [] 2, status := Status.Ok,
             transferred := 4096, data := List.replicate 4096 7 }] := by
  refine ⟨by decide, by decide, ?_⟩
  obtain ⟨e1, e2, h1, h2, _, h4, _⟩ :=
    Engine.write_then_read pageAligned
      (Engine.Init (NandParams.NandParams_fields 4096 64 1024 8) ERASE_PATTERN)
      2 0 0 4096 (List.replicate 4096 7) [] 1 2
      (List.length_replicate _ _) (List.length_replicate _ _)
      (by decide) (by decide) (by decide) (by decide)
  exact ⟨e1, e2, h1, h2, h4⟩

theorem Engine.queue_is_fifo_witness :
    (Engine.Init (NandParams.NandParams_fields 4 2 4 0) 0).dev.dead_ = false ∧
      (Engine.Init (NandParams.NandParams_fields 4 2 4 0) 0).dev.txn_list_ = [] ∧
      ∃ d' e',
        (Engine.Init (NandParams.NandParams_fields 4 2 4 0) 0).dev.QueueAll
          [nand_op_t.mkWrite 1 0 0 4 [1, 2, 3, 4] 1, nand_op_t.mkRead 1 0 0 4 [] 2,
            nand_op_t.mkErase 1 0 0 8 3] = some d' ∧
        NandDevice.TakeN 3 d' =
          some ([nand_op_t.mkWrite 1 0 0 4 [1, 2, 3, 4] 1, nand_op_t.mkRead 1 0 0 4 [] 2,
            nand_op_t.mkErase 1 0 0 8 3],
            (Engine.Init (NandParams.NandParams_fields 4 2 4 0) 0).dev) ∧
        Engine.WorkerThread pageAligned 4
          { Engine.Init (NandParams.NandParams_fields 4 2 4 0) 0 with dev := d' } =
          (e', WorkerEnd.Idle) ∧
        e'.completions.map Completion.op =
          [nand_op_t.mkWrite 1 0 0 4 [1, 2, 3, 4] 1, nand_op_t.mkRead 1 0 0 4 [] 2,
            nand_op_t.mkErase 1 0 0 8 3] := by
  refine ⟨rfl, rfl, ?_⟩
  obtain ⟨d', e', h1, _, _, _, _, h6, h7, h8, _⟩ :=
    Engine.queue_is_fifo pageAligned (Engine.Init (NandParams.NandParams_fields 4 2 4 0) 0)
      [nand_op_t.mkWrite 1 0 0 4 [1, 2, 3, 4] 1, nand_op_t.mkRead 1 0 0 4 [] 2,
        nand_op_t.mkErase 1 0 0 8 3]
      rfl (by decide)
  exact ⟨d', e', h1, h6 rfl, h7, h8⟩

end RamNand
